import Mathlib

/-!
Shallow embedding of the options-chain terminal viewer (src/src/main.rs).

The data model mirrors the Rust structs; `f64` fields are kept abstract via a
type parameter `α` (no arithmetic on them is needed by the properties below,
they are only carried through). Machine integers (`usize`) are modelled by
`Nat`: every subtraction in the source is either guarded so it cannot
underflow, or is `saturating_sub`, which coincides with `Nat` subtraction,
and `usize` overflow is unreachable for counts of in-memory vectors. The
`u16` height arithmetic of the viewport allocator, by contrast, can
truncate and wrap on reachable inputs, so it is modelled with explicit
reduction modulo 2^16 (`U16_MOD`, the release-build wrap semantics; debug
builds panic at the same points, so either way the unbounded value is not
computed). Colors and styles are out of scope per the spec and are not
modelled.
-/

/-- Rust struct `Greeks` (main.rs lines 27-33). -/
structure Greeks (α : Type) where
  delta : α
  gamma : α
  theta : α
  vega : α
  rho : α
deriving Repr

/-- Rust struct `OptionData` (main.rs lines 36-48). -/
structure OptionData (α : Type) where
  symbol : String
  bid : α
  ask : α
  bid_size : Int
  ask_size : Int
  volume : Int
  open_interest : Int
  greeks : Greeks α
deriving Repr

/-- Rust struct `OptionPair` (main.rs lines 51-55). -/
structure OptionPair (α : Type) where
  strike : α
  call : OptionData α
  put : OptionData α
deriving Repr

/-- Rust struct `Expiration` (main.rs lines 58-61). -/
structure Expiration (α : Type) where
  date : String
  options : List (OptionPair α)
deriving Repr

/-- Rust struct `OptionsChain` (main.rs lines 64-71). -/
structure OptionsChain (α : Type) where
  symbol : String
  last_price : α
  last_update : String
  expirations : List (Expiration α)
deriving Repr

/-- Rust struct `App` (main.rs lines 74-80): the mutable view state. -/
structure App (α : Type) where
  options_chain : OptionsChain α
  expanded_expirations : List Bool
  cursor_position : Nat
  scroll_offset : Nat
  show_greeks : Bool
deriving Repr

/-- Rust `App::new` (main.rs lines 83-92): all collapsed, cursor and scroll at 0,
greeks shown. -/
def App.new {α : Type} (options_chain : OptionsChain α) : App α :=
  { options_chain := options_chain
    expanded_expirations := List.replicate options_chain.expirations.length false
    cursor_position := 0
    scroll_offset := 0
    show_greeks := true }

/-- Rust `App::toggle_current_expiration` (main.rs lines 94-99): flip the expanded
flag at the cursor when the cursor is in bounds. -/
def App.toggle_current_expiration {α : Type} (a : App α) : App α :=
  if a.cursor_position < a.expanded_expirations.length then
    let flipped := ! a.expanded_expirations.getD a.cursor_position false
    { a with expanded_expirations :=
               a.expanded_expirations.set a.cursor_position flipped }
  else a

/-- Rust `App::toggle_greeks` (main.rs lines 101-103). -/
def App.toggle_greeks {α : Type} (a : App α) : App α :=
  { a with show_greeks := ! a.show_greeks }

/-- The `VISIBLE_ITEMS` constant of `App::adjust_scroll` (main.rs line 143). -/
def VISIBLE_ITEMS : Nat := 10

/-- Rust `App::adjust_scroll` (main.rs lines 141-150): keep the cursor within the
assumed 10-item visible window. In the second branch the source computes
`cursor_position - VISIBLE_ITEMS + 1` in `usize`; the guard gives
`cursor_position ≥ scroll_offset + 10 ≥ 10`, so `Nat` subtraction agrees. -/
def App.adjust_scroll {α : Type} (a : App α) : App α :=
  if a.cursor_position < a.scroll_offset then
    { a with scroll_offset := a.cursor_position }
  else if a.cursor_position ≥ a.scroll_offset + VISIBLE_ITEMS then
    { a with scroll_offset := a.cursor_position - VISIBLE_ITEMS + 1 }
  else a

/-- Rust `App::move_cursor_down` (main.rs lines 105-110). -/
def App.move_cursor_down {α : Type} (a : App α) : App α :=
  if a.expanded_expirations.isEmpty then a
  else
    let c := (a.cursor_position + 1) % a.expanded_expirations.length
    App.adjust_scroll { a with cursor_position := c }

/-- Rust `App::move_cursor_up` (main.rs lines 112-118): the source computes
`(cursor_position + len - 1) % len` in `usize`; `len ≥ 1` in this branch, so
`Nat` subtraction agrees. -/
def App.move_cursor_up {α : Type} (a : App α) : App α :=
  if a.expanded_expirations.isEmpty then a
  else
    let c := (a.cursor_position + a.expanded_expirations.length - 1) %
               a.expanded_expirations.length
    App.adjust_scroll { a with cursor_position := c }

/-- Rust `App::page_down` (main.rs lines 120-130): clamp at the end. -/
def App.page_down {α : Type} (a : App α) : App α :=
  if a.expanded_expirations.isEmpty then a
  else
    let c := min (a.cursor_position + 5) (a.expanded_expirations.length - 1)
    App.adjust_scroll { a with cursor_position := c }

/-- Rust `App::page_up` (main.rs lines 132-138): `saturating_sub 5`, which is `Nat`
subtraction. -/
def App.page_up {α : Type} (a : App α) : App α :=
  if a.expanded_expirations.isEmpty then a
  else App.adjust_scroll { a with cursor_position := a.cursor_position - 5 }

/-! ## Viewport allocator (render_expirations_list, main.rs lines 242-281) -/

/-- Visible index range of `render_expirations_list` (main.rs lines 245-247):
`visible_start = scroll_offset`, `visible_end = min (len, start + height)`,
iterated as the Rust range `visible_start..visible_end`. -/
def visible_indices (N s H : Nat) : List Nat :=
  List.range' s (min N (s + H) - s)

/-- The modulus of the `u16` height arithmetic of
`render_expirations_list`: `height` and `total_min_height` are `u16`
(forced by `Constraint::Min(u16)` and the comparison with `area.height`). -/
def U16_MOD : Nat := 65536

/-- Per-item minimum height (main.rs lines 257-263): 3 for the header and
border, plus `options.len() as u16 + 2` when the expiration is expanded.
The computation is `u16`: the `as u16` cast truncates the option count
modulo 2^16 in every build mode, and each addition is reduced modulo 2^16
(release builds wrap there; debug builds panic instead of wrapping). -/
def min_height (expanded : Bool) (numOptions : Nat) : Nat :=
  let h := 3
  if expanded then (h + (numOptions % U16_MOD + 2) % U16_MOD) % U16_MOD
  else h

/-- The default `Expiration` used to totalize list indexing. -/
def emptyExpiration (α : Type) : Expiration α := { date := "", options := [] }

/-- Heights of the visible items, in visible order (main.rs lines 254-267):
for each `i` in the visible range, `min_height` of item `i`'s expanded flag
and option count. The source indexes `expanded_expirations[i]` and
`expirations[i]` directly; the visible range keeps `i < len`, so the `getD`
defaults are never used for states built by `App.new`. -/
def visible_heights {α : Type} (a : App α) (H : Nat) : List Nat :=
  (visible_indices a.options_chain.expirations.length a.scroll_offset H).map
    (fun i =>
      min_height (a.expanded_expirations.getD i false)
        ((a.options_chain.expirations.getD i (emptyExpiration α)).options.length))

/-- Add `d` to the last entry of a list (constraint surplus bump,
`min_height + (area.height - total_min_height)` at main.rs lines 271-274).
The addition is `u16`, hence reduced modulo 2^16 (release builds wrap,
debug builds panic on overflow). -/
def add_to_last : List Nat → Nat → List Nat
  | [], _ => []
  | [x], d => [(x + d) % U16_MOD]
  | x :: y :: t, d => x :: add_to_last (y :: t) d

/-- The `total_min_height` accumulator of `render_expirations_list`
(main.rs lines 252 and 265): a `u16` running sum of the per-item heights,
each step reduced modulo 2^16 (release builds wrap; debug builds panic on
the overflowing step). -/
def total_min_height (hs : List Nat) : Nat :=
  hs.foldl (fun acc h => (acc + h) % U16_MOD) 0

/-- Surplus distribution of `render_expirations_list` (main.rs lines 269-275):
when the constraint list is non-empty and the `u16` total minimum height is
below the area height, the whole surplus is added to the last constraint. -/
def allocate_heights (hs : List Nat) (H : Nat) : List Nat :=
  if hs ≠ [] ∧ total_min_height hs < H then
    add_to_last hs (H - total_min_height hs)
  else hs

/-- The full height-assignment pipeline of `render_expirations_list` for a
region of height `H`: compute the visible items' minimum heights, then apply
the surplus rule. -/
def render_heights {α : Type} (a : App α) (H : Nat) : List Nat :=
  allocate_heights (visible_heights a H) H

/-! ## Options table rendering (render_options_table, main.rs lines 350-508)

A rendered cell is modelled by the value it displays: a literal string (header
labels, option symbols), a price formatted with two decimals, a greek
formatted with four decimals, or an integer. Colors and styles are out of
scope per the spec. -/

/-- A cell of the rendered options table, identified by displayed value. -/
inductive TCell (α : Type) where
  | text : String → TCell α
  | price2 : α → TCell α
  | price4 : α → TCell α
  | intval : Int → TCell α
deriving Repr

/-- Header cells of the options table (main.rs lines 395-433): six call-side
columns, the greeks columns when shown, strike plus six put-side columns, and
the put greeks columns when shown. -/
def header_cells (α : Type) (show_greeks : Bool) : List (TCell α) :=
  let cells : List (TCell α) :=
    [.text "Call Sym", .text "Bid", .text "Ask", .text "Bid Size",
     .text "Ask Size", .text "Volume"]
  let cells := if show_greeks then
      cells ++ [.text "Delta", .text "Gamma", .text "Vega"] else cells
  let cells := cells ++
    [.text "Strike", .text "Put Sym", .text "Bid", .text "Ask",
     .text "Bid Size", .text "Ask Size", .text "Volume"]
  let cells := if show_greeks then
      cells ++ [.text "Delta", .text "Gamma", .text "Vega"] else cells
  cells

/-- The three greek cells pushed for one side (main.rs lines 453-459 and
486-492): delta, gamma, vega, each formatted with four decimals. -/
def greek_cells {α : Type} (g : Greeks α) : List (TCell α) :=
  [.price4 g.delta, .price4 g.gamma, .price4 g.vega]

/-- The six leading call-side cells of an option row (main.rs lines 444-451). -/
def call_cells {α : Type} (p : OptionPair α) : List (TCell α) :=
  [.text p.call.symbol, .price2 p.call.bid, .price2 p.call.ask,
   .intval p.call.bid_size, .intval p.call.ask_size, .intval p.call.volume]

/-- The strike cell followed by the six put-side cells
(main.rs lines 470-484). -/
def strike_put_cells {α : Type} (p : OptionPair α) : List (TCell α) :=
  [.price2 p.strike, .text p.put.symbol, .price2 p.put.bid,
   .price2 p.put.ask, .intval p.put.bid_size, .intval p.put.ask_size,
   .intval p.put.volume]

/-- One data row of the options table (main.rs lines 443-497): call cells,
call greeks when shown, strike and put cells, put greeks when shown. -/
def row_cells {α : Type} (show_greeks : Bool) (p : OptionPair α) :
    List (TCell α) :=
  let cells := call_cells p
  let cells := if show_greeks then cells ++ greek_cells p.call.greeks
               else cells
  let cells := cells ++ strike_put_cells p
  let cells := if show_greeks then cells ++ greek_cells p.put.greeks
               else cells
  cells

/-- All data rows of the options table for one expiration
(main.rs lines 440-498): one row per option pair, in order. -/
def table_rows {α : Type} (show_greeks : Bool) (e : Expiration α) :
    List (List (TCell α)) :=
  e.options.map (row_cells show_greeks)

/-- Replace the theta and rho fields of both sides of a pair, leaving every
other field unchanged; used to state that the renderer never reads them. -/
def set_theta_rho {α : Type} (p : OptionPair α) (t r : α) : OptionPair α :=
  { p with
      call := { p.call with greeks := { p.call.greeks with theta := t, rho := r } }
      put := { p.put with greeks := { p.put.greeks with theta := t, rho := r } } }

/-! ## Navigation operation sequences (main loop dispatch, main.rs 193-204) -/

/-- The cursor-moving keys of the main loop: Down, Up, PageDown, PageUp. -/
inductive NavOp where
  | down
  | up
  | pageDown
  | pageUp
deriving Repr, DecidableEq

/-- Dispatch one cursor-move key (main.rs lines 198-201). -/
def apply_op {α : Type} (a : App α) : NavOp → App α
  | .down => a.move_cursor_down
  | .up => a.move_cursor_up
  | .pageDown => a.page_down
  | .pageUp => a.page_up

/-- Apply a sequence of cursor-move keys in order. -/
def apply_ops {α : Type} (a : App α) (ops : List NavOp) : App α :=
  ops.foldl apply_op a

/-! ## Helper lemmas: field projections of the operations -/

@[simp]
theorem App.adjust_scroll_cursor {α : Type} (a : App α) :
    a.adjust_scroll.cursor_position = a.cursor_position := by
  unfold App.adjust_scroll
  split
  · rfl
  · split <;> rfl

@[simp]
theorem App.adjust_scroll_expanded {α : Type} (a : App α) :
    a.adjust_scroll.expanded_expirations = a.expanded_expirations := by
  unfold App.adjust_scroll
  split
  · rfl
  · split <;> rfl

@[simp]
theorem App.adjust_scroll_chain {α : Type} (a : App α) :
    a.adjust_scroll.options_chain = a.options_chain := by
  unfold App.adjust_scroll
  split
  · rfl
  · split <;> rfl

@[simp]
theorem App.adjust_scroll_greeks {α : Type} (a : App α) :
    a.adjust_scroll.show_greeks = a.show_greeks := by
  unfold App.adjust_scroll
  split
  · rfl
  · split <;> rfl

theorem App.move_cursor_down_expanded {α : Type} (a : App α) :
    a.move_cursor_down.expanded_expirations = a.expanded_expirations := by
  unfold App.move_cursor_down
  split
  · rfl
  · simp

theorem App.move_cursor_up_expanded {α : Type} (a : App α) :
    a.move_cursor_up.expanded_expirations = a.expanded_expirations := by
  unfold App.move_cursor_up
  split
  · rfl
  · simp

theorem App.page_down_expanded {α : Type} (a : App α) :
    a.page_down.expanded_expirations = a.expanded_expirations := by
  unfold App.page_down
  split
  · rfl
  · simp

theorem App.page_up_expanded {α : Type} (a : App α) :
    a.page_up.expanded_expirations = a.expanded_expirations := by
  unfold App.page_up
  split
  · rfl
  · simp

theorem App.move_cursor_down_chain {α : Type} (a : App α) :
    a.move_cursor_down.options_chain = a.options_chain := by
  unfold App.move_cursor_down
  split
  · rfl
  · simp

theorem App.move_cursor_up_chain {α : Type} (a : App α) :
    a.move_cursor_up.options_chain = a.options_chain := by
  unfold App.move_cursor_up
  split
  · rfl
  · simp

theorem App.page_down_chain {α : Type} (a : App α) :
    a.page_down.options_chain = a.options_chain := by
  unfold App.page_down
  split
  · rfl
  · simp

theorem App.page_up_chain {α : Type} (a : App α) :
    a.page_up.options_chain = a.options_chain := by
  unfold App.page_up
  split
  · rfl
  · simp

theorem App.move_cursor_down_greeks {α : Type} (a : App α) :
    a.move_cursor_down.show_greeks = a.show_greeks := by
  unfold App.move_cursor_down
  split
  · rfl
  · simp

theorem App.move_cursor_up_greeks {α : Type} (a : App α) :
    a.move_cursor_up.show_greeks = a.show_greeks := by
  unfold App.move_cursor_up
  split
  · rfl
  · simp

theorem App.page_down_greeks {α : Type} (a : App α) :
    a.page_down.show_greeks = a.show_greeks := by
  unfold App.page_down
  split
  · rfl
  · simp

theorem App.page_up_greeks {α : Type} (a : App α) :
    a.page_up.show_greeks = a.show_greeks := by
  unfold App.page_up
  split
  · rfl
  · simp

theorem App.move_cursor_down_cursor {α : Type} (a : App α)
    (h : a.expanded_expirations ≠ []) :
    a.move_cursor_down.cursor_position =
      (a.cursor_position + 1) % a.expanded_expirations.length := by
  unfold App.move_cursor_down
  rw [if_neg (by simpa [List.isEmpty_iff] using h)]
  simp

theorem App.move_cursor_up_cursor {α : Type} (a : App α)
    (h : a.expanded_expirations ≠ []) :
    a.move_cursor_up.cursor_position =
      (a.cursor_position + a.expanded_expirations.length - 1) %
        a.expanded_expirations.length := by
  unfold App.move_cursor_up
  rw [if_neg (by simpa [List.isEmpty_iff] using h)]
  simp

theorem App.page_down_cursor {α : Type} (a : App α)
    (h : a.expanded_expirations ≠ []) :
    a.page_down.cursor_position =
      min (a.cursor_position + 5) (a.expanded_expirations.length - 1) := by
  unfold App.page_down
  rw [if_neg (by simpa [List.isEmpty_iff] using h)]
  simp

theorem App.page_up_cursor {α : Type} (a : App α)
    (h : a.expanded_expirations ≠ []) :
    a.page_up.cursor_position = a.cursor_position - 5 := by
  unfold App.page_up
  rw [if_neg (by simpa [List.isEmpty_iff] using h)]
  simp

/-- Iterating `move_cursor_down` advances the cursor additively modulo the
expiration count and never touches the expanded flags. -/
theorem App.move_cursor_down_iterate {α : Type} (a : App α)
    (hne : a.expanded_expirations ≠ [])
    (hc : a.cursor_position < a.expanded_expirations.length) (k : Nat) :
    (App.move_cursor_down^[k] a).expanded_expirations = a.expanded_expirations ∧
    (App.move_cursor_down^[k] a).cursor_position =
      (a.cursor_position + k) % a.expanded_expirations.length := by
  induction k with
  | zero => simpa using (Nat.mod_eq_of_lt hc).symm
  | succ k ih =>
    obtain ⟨ih1, ih2⟩ := ih
    rw [Function.iterate_succ_apply']
    have hbne : (App.move_cursor_down^[k] a).expanded_expirations ≠ [] := by
      rw [ih1]; exact hne
    refine ⟨by rw [App.move_cursor_down_expanded, ih1], ?_⟩
    rw [App.move_cursor_down_cursor _ hbne, ih1, ih2, Nat.mod_add_mod,
      Nat.add_assoc]

/-! ## Sample data used by the witnesses -/

/-- A concrete greeks block. -/
def sampleGreeks : Greeks Int :=
  { delta := 1, gamma := 2, theta := 3, vega := 4, rho := 5 }

/-- A concrete quote. -/
def sampleQuote : OptionData Int :=
  { symbol := "C100", bid := 10, ask := 11, bid_size := 7, ask_size := 8,
    volume := 20, open_interest := 30, greeks := sampleGreeks }

/-- A concrete option pair. -/
def samplePair : OptionPair Int :=
  { strike := 100, call := sampleQuote,
    put := { sampleQuote with symbol := "P100" } }

/-- A concrete expiration with three option pairs. -/
def sampleExp : Expiration Int :=
  { date := "2025-01-17", options := [samplePair, samplePair, samplePair] }

/-- A concrete chain with two expirations. -/
def sampleChain : OptionsChain Int :=
  { symbol := "SPY", last_price := 99, last_update := "now",
    expirations := [sampleExp, sampleExp] }

/-- A concrete chain with no expirations. -/
def emptyChain : OptionsChain Int :=
  { symbol := "SPY", last_price := 99, last_update := "now",
    expirations := [] }

/-- A concrete chain with twelve expirations (more than the visible window). -/
def chain12 : OptionsChain Int :=
  { symbol := "SPY", last_price := 99, last_update := "now",
    expirations := List.replicate 12 sampleExp }

/-! ## Claim theorems -/

/-- C2: with `N = expanded_expirations.length ≥ 1` and cursor in `[0, N)`,
`move_cursor_down` sets the cursor to `(index + 1) % N` and `move_cursor_up`
to `(index + N - 1) % N`; applying `move_cursor_down` `N` times returns the
cursor to its start, `move_cursor_up` from index 0 yields `N - 1`, and with
`N = 0` both moves are no-ops. -/
theorem move_cursor_wrap_spec {α : Type} (a : App α)
    (hN : 1 ≤ a.expanded_expirations.length)
    (hc : a.cursor_position < a.expanded_expirations.length) :
    a.move_cursor_down.cursor_position =
      (a.cursor_position + 1) % a.expanded_expirations.length ∧
    a.move_cursor_up.cursor_position =
      (a.cursor_position + a.expanded_expirations.length - 1) %
        a.expanded_expirations.length ∧
    (App.move_cursor_down^[a.expanded_expirations.length] a).cursor_position =
      a.cursor_position ∧
    (a.cursor_position = 0 →
      a.move_cursor_up.cursor_position = a.expanded_expirations.length - 1) ∧
    (∀ b : App α, b.expanded_expirations.length = 0 →
      b.move_cursor_down = b ∧ b.move_cursor_up = b) := by
  have hne : a.expanded_expirations ≠ [] := by
    intro h
    rw [h] at hN
    simp at hN
  refine ⟨App.move_cursor_down_cursor a hne, App.move_cursor_up_cursor a hne,
    ?_, ?_, ?_⟩
  · rw [(App.move_cursor_down_iterate a hne hc _).2, Nat.add_mod_right,
      Nat.mod_eq_of_lt hc]
  · intro h0
    rw [App.move_cursor_up_cursor a hne, h0, Nat.zero_add,
      Nat.mod_eq_of_lt (by omega)]
  · intro b hb
    have hb' : b.expanded_expirations = [] := List.length_eq_zero.mp hb
    constructor <;>
      simp [App.move_cursor_down, App.move_cursor_up, hb']

/-- Witness for C2 at a two-expiration chain with the cursor at 0. -/
theorem move_cursor_wrap_spec_witness :
    1 ≤ (App.new sampleChain).expanded_expirations.length ∧
    (App.new sampleChain).cursor_position <
      (App.new sampleChain).expanded_expirations.length ∧
    (App.new sampleChain).move_cursor_down.cursor_position = 1 ∧
    (App.new sampleChain).move_cursor_up.cursor_position = 1 ∧
    (App.move_cursor_down^[2] (App.new sampleChain)).cursor_position = 0 := by
  have h := move_cursor_wrap_spec (App.new sampleChain) (by decide) (by decide)
  refine ⟨by decide, by decide, ?_, ?_, ?_⟩
  · rw [h.1]; decide
  · rw [h.2.1]; decide
  · have h3 := h.2.2.1
    have hlen : (App.new sampleChain).expanded_expirations.length = 2 := by decide
    rw [hlen] at h3
    rw [h3]; decide

/-- C3: scroll reconciliation with the window constant fixed at 10: if the
cursor is above the offset the offset becomes the cursor; if the cursor is at
or beyond `offset + 10` the offset becomes `cursor - 10 + 1`; otherwise the
state is unchanged. -/
theorem adjust_scroll_reconcile_spec {α : Type} (a : App α) :
    VISIBLE_ITEMS = 10 ∧
    (a.cursor_position < a.scroll_offset →
      a.adjust_scroll = { a with scroll_offset := a.cursor_position }) ∧
    (a.scroll_offset + VISIBLE_ITEMS ≤ a.cursor_position →
      a.adjust_scroll =
        { a with scroll_offset := a.cursor_position - VISIBLE_ITEMS + 1 }) ∧
    (a.scroll_offset ≤ a.cursor_position →
      a.cursor_position < a.scroll_offset + VISIBLE_ITEMS →
      a.adjust_scroll = a) := by
  refine ⟨rfl, ?_, ?_, ?_⟩
  · intro h
    simp [App.adjust_scroll, h]
  · intro h
    have h1 : ¬ a.cursor_position < a.scroll_offset :=
      Nat.not_lt.mpr (le_trans (Nat.le_add_right _ _) h)
    simp [App.adjust_scroll, h1, h]
  · intro h1 h2
    simp [App.adjust_scroll, Nat.not_lt.mpr h1, Nat.not_le.mpr h2]

/-- A concrete state with the cursor far below the scroll window. -/
def appFarDown : App Int :=
  { App.new chain12 with cursor_position := 11, scroll_offset := 0 }

/-- Witness for C3: from offset 0, a cursor at 11 pulls the offset to 2. -/
theorem adjust_scroll_reconcile_spec_witness :
    appFarDown.scroll_offset + VISIBLE_ITEMS ≤ appFarDown.cursor_position ∧
    appFarDown.adjust_scroll =
      { appFarDown with
          scroll_offset := appFarDown.cursor_position - VISIBLE_ITEMS + 1 } :=
  ⟨by decide, (adjust_scroll_reconcile_spec appFarDown).2.2.1 (by decide)⟩

/-- C5: with `N = expanded_expirations.length ≥ 1` and cursor in `[0, N)`,
`page_down` moves the cursor to `min (index + 5) (N - 1)` and `page_up` to
`max (index - 5) 0`: paging clamps at the boundaries, never exceeding `N - 1`
and never going below 0. -/
theorem page_clamp_spec {α : Type} (a : App α)
    (hN : 1 ≤ a.expanded_expirations.length)
    (hc : a.cursor_position < a.expanded_expirations.length) :
    a.page_down.cursor_position =
      min (a.cursor_position + 5) (a.expanded_expirations.length - 1) ∧
    (a.page_up.cursor_position : Int) =
      max ((a.cursor_position : Int) - 5) 0 ∧
    a.page_down.cursor_position ≤ a.expanded_expirations.length - 1 ∧
    0 ≤ (a.page_up.cursor_position : Int) := by
  have hne : a.expanded_expirations ≠ [] := by
    intro h
    rw [h] at hN
    simp at hN
  refine ⟨App.page_down_cursor a hne, ?_, ?_, ?_⟩
  · rw [App.page_up_cursor a hne]
    omega
  · rw [App.page_down_cursor a hne]
    omega
  · omega

/-- Witness for C5 at a twelve-expiration chain with cursor 11: paging down
stays at 11 and paging up lands on 6. -/
theorem page_clamp_spec_witness :
    1 ≤ appFarDown.expanded_expirations.length ∧
    appFarDown.cursor_position < appFarDown.expanded_expirations.length ∧
    appFarDown.page_down.cursor_position = 11 ∧
    appFarDown.page_up.cursor_position = 6 := by
  have h := page_clamp_spec appFarDown (by decide) (by decide)
  refine ⟨by decide, by decide, ?_, ?_⟩
  · rw [h.1]; decide
  · have h2 := h.2.1
    rw [show appFarDown.cursor_position = 11 from by decide] at h2
    norm_num at h2
    omega

/-- C8: with zero expirations (and the expanded-flag list kept in sync with
the chain, as `App::new` establishes), every navigation operation — both
moves, both pages, and toggling the current expiration — returns the state
unchanged. -/
theorem empty_chain_noop_spec {α : Type} (a : App α)
    (hN : a.options_chain.expirations.length = 0)
    (hsync : a.expanded_expirations.length = a.options_chain.expirations.length) :
    a.move_cursor_down = a ∧ a.move_cursor_up = a ∧
    a.page_down = a ∧ a.page_up = a ∧ a.toggle_current_expiration = a := by
  have h : a.expanded_expirations = [] := by
    rw [← List.length_eq_zero]
    omega
  refine ⟨?_, ?_, ?_, ?_, ?_⟩ <;>
    simp [App.move_cursor_down, App.move_cursor_up, App.page_down,
      App.page_up, App.toggle_current_expiration, h]

/-- Witness for C8 at the freshly loaded empty chain. -/
theorem empty_chain_noop_spec_witness :
    (App.new emptyChain).options_chain.expirations.length = 0 ∧
    (App.new emptyChain).move_cursor_down = App.new emptyChain ∧
    (App.new emptyChain).toggle_current_expiration = App.new emptyChain := by
  have h := empty_chain_noop_spec (App.new emptyChain) (by decide) (by decide)
  exact ⟨by decide, h.1, h.2.2.2.2⟩

/-- The function `adjust_scroll` always leaves the cursor inside the assumed window. -/
theorem App.adjust_scroll_window {α : Type} (a : App α) :
    a.adjust_scroll.scroll_offset ≤ a.adjust_scroll.cursor_position ∧
    a.adjust_scroll.cursor_position ≤
      a.adjust_scroll.scroll_offset + VISIBLE_ITEMS - 1 := by
  unfold App.adjust_scroll VISIBLE_ITEMS
  split
  · simp
  · split
    · simp
      omega
    · simp
      omega

/-- Every cursor-move key acts by `adjust_scroll` on some intermediate state
when the expiration list is non-empty. -/
theorem apply_op_eq_adjust {α : Type} (a : App α) (op : NavOp)
    (h : a.expanded_expirations ≠ []) :
    ∃ b : App α, apply_op a op = App.adjust_scroll b := by
  have hf : a.expanded_expirations.isEmpty = false := by
    simpa [List.isEmpty_iff] using h
  cases op
  case down =>
    exact ⟨_, by simp only [apply_op, App.move_cursor_down, hf]; rfl⟩
  case up =>
    exact ⟨_, by simp only [apply_op, App.move_cursor_up, hf]; rfl⟩
  case pageDown =>
    exact ⟨_, by simp only [apply_op, App.page_down, hf]; rfl⟩
  case pageUp =>
    exact ⟨_, by simp only [apply_op, App.page_up, hf]; rfl⟩

/-- A cursor-move key re-establishes the window condition. -/
theorem apply_op_window {α : Type} (a : App α) (op : NavOp)
    (h : a.expanded_expirations ≠ []) :
    (apply_op a op).scroll_offset ≤ (apply_op a op).cursor_position ∧
    (apply_op a op).cursor_position ≤
      (apply_op a op).scroll_offset + VISIBLE_ITEMS - 1 := by
  obtain ⟨b, hb⟩ := apply_op_eq_adjust a op h
  rw [hb]
  exact App.adjust_scroll_window b

/-- Cursor-move keys never change the expanded flags. -/
theorem apply_op_expanded {α : Type} (a : App α) (op : NavOp) :
    (apply_op a op).expanded_expirations = a.expanded_expirations := by
  cases op <;>
    simp only [apply_op, App.move_cursor_down_expanded,
      App.move_cursor_up_expanded, App.page_down_expanded,
      App.page_up_expanded]

/-- Cursor-move keys never change the greeks flag. -/
theorem apply_op_greeks {α : Type} (a : App α) (op : NavOp) :
    (apply_op a op).show_greeks = a.show_greeks := by
  cases op <;>
    simp only [apply_op, App.move_cursor_down_greeks,
      App.move_cursor_up_greeks, App.page_down_greeks, App.page_up_greeks]

/-- Cursor-move keys never change the loaded chain. -/
theorem apply_op_chain {α : Type} (a : App α) (op : NavOp) :
    (apply_op a op).options_chain = a.options_chain := by
  cases op <;>
    simp only [apply_op, App.move_cursor_down_chain,
      App.move_cursor_up_chain, App.page_down_chain, App.page_up_chain]

/-- Any sequence of cursor-move keys preserves the expanded flags and keeps
the window condition, starting from any state that satisfies it. -/
theorem apply_ops_window {α : Type} (ops : List NavOp) :
    ∀ a : App α, a.expanded_expirations ≠ [] →
      (a.scroll_offset ≤ a.cursor_position ∧
        a.cursor_position ≤ a.scroll_offset + VISIBLE_ITEMS - 1) →
      (apply_ops a ops).expanded_expirations = a.expanded_expirations ∧
      (apply_ops a ops).scroll_offset ≤ (apply_ops a ops).cursor_position ∧
      (apply_ops a ops).cursor_position ≤
        (apply_ops a ops).scroll_offset + VISIBLE_ITEMS - 1 := by
  induction ops with
  | nil =>
    intro a _ hw
    exact ⟨rfl, hw⟩
  | cons op rest ih =>
    intro a h hw
    have hexp := apply_op_expanded a op
    have hne2 : (apply_op a op).expanded_expirations ≠ [] := by
      rw [hexp]; exact h
    have hw2 := apply_op_window a op h
    have hrec := ih (apply_op a op) hne2 hw2
    have hfold : apply_ops a (op :: rest) = apply_ops (apply_op a op) rest := rfl
    rw [hfold]
    exact ⟨hrec.1.trans hexp, hrec.2⟩

/-- C4: starting from the freshly loaded state (cursor 0, scroll offset 0),
after any sequence of cursor moves and pages the invariant
`scroll_offset ≤ cursor_position ≤ scroll_offset + VISIBLE_ITEMS - 1` holds
whenever the expiration count exceeds the visible window of 10. -/
theorem window_invariant_spec {α : Type} (oc : OptionsChain α)
    (ops : List NavOp) (hN : VISIBLE_ITEMS < oc.expirations.length) :
    (apply_ops (App.new oc) ops).scroll_offset ≤
      (apply_ops (App.new oc) ops).cursor_position ∧
    (apply_ops (App.new oc) ops).cursor_position ≤
      (apply_ops (App.new oc) ops).scroll_offset + VISIBLE_ITEMS - 1 := by
  have h10 : VISIBLE_ITEMS = 10 := rfl
  rw [h10] at hN
  have hne : (App.new oc).expanded_expirations ≠ [] := by
    simp only [App.new]
    rw [Ne, List.replicate_eq_nil_iff]
    omega
  have hw0 : (App.new oc).scroll_offset ≤ (App.new oc).cursor_position ∧
      (App.new oc).cursor_position ≤
        (App.new oc).scroll_offset + VISIBLE_ITEMS - 1 := by
    constructor <;> simp [App.new]
  exact (apply_ops_window ops (App.new oc) hne hw0).2

/-- Witness for C4: twelve expirations, paging down twice then one step up. -/
theorem window_invariant_spec_witness :
    VISIBLE_ITEMS < chain12.expirations.length ∧
    (apply_ops (App.new chain12)
        [NavOp.pageDown, NavOp.pageDown, NavOp.up]).scroll_offset ≤
      (apply_ops (App.new chain12)
        [NavOp.pageDown, NavOp.pageDown, NavOp.up]).cursor_position ∧
    (apply_ops (App.new chain12)
        [NavOp.pageDown, NavOp.pageDown, NavOp.up]).cursor_position ≤
      (apply_ops (App.new chain12)
        [NavOp.pageDown, NavOp.pageDown, NavOp.up]).scroll_offset +
        VISIBLE_ITEMS - 1 :=
  ⟨by decide,
   window_invariant_spec chain12 [NavOp.pageDown, NavOp.pageDown, NavOp.up]
     (by decide)⟩

/-- When the true sum of the heights fits in `u16`, the wrapping `u16`
accumulator computes exactly that sum. -/
theorem total_min_height_go (hs : List Nat) :
    ∀ acc, acc + hs.sum < U16_MOD →
      hs.foldl (fun a h => (a + h) % U16_MOD) acc = acc + hs.sum := by
  induction hs with
  | nil =>
    intro acc _
    simp
  | cons x t ih =>
    intro acc hfit
    rw [List.sum_cons] at hfit
    rw [List.foldl_cons, Nat.mod_eq_of_lt (by omega), ih (acc + x) (by omega),
      List.sum_cons]
    omega

/-- With a total below 2^16 the `u16` accumulator agrees with the sum. -/
theorem total_min_height_eq (hs : List Nat) (hfit : hs.sum < U16_MOD) :
    total_min_height hs = hs.sum := by
  have h := total_min_height_go hs 0 (by omega)
  rw [total_min_height, h]
  omega

/-- The function `add_to_last` whose final bump stays below 2^16 rewrites a
non-empty list into its front followed by the bumped last element. -/
theorem add_to_last_eq (hs : List Nat) (d : Nat) :
    ∀ h : hs ≠ [], hs.getLast h + d < U16_MOD →
      add_to_last hs d = hs.dropLast ++ [hs.getLast h + d] := by
  induction hs with
  | nil =>
    intro h
    cases h rfl
  | cons x t ih =>
    intro h hlt
    cases t with
    | nil =>
      have hx : x + d < U16_MOD := hlt
      show [(x + d) % U16_MOD] = [x].dropLast ++ [[x].getLast h + d]
      rw [Nat.mod_eq_of_lt hx]
      rfl
    | cons y t2 =>
      have hne2 : y :: t2 ≠ [] := by simp
      have hlt2 : (y :: t2).getLast hne2 + d < U16_MOD := by
        rwa [List.getLast_cons hne2] at hlt
      show x :: add_to_last (y :: t2) d = _
      rw [ih hne2 hlt2]
      rw [List.dropLast_cons₂, List.getLast_cons hne2]
      rfl

/-- Replacing the last element of a list by anything at least as large never
decreases an entry of the list. -/
theorem getD_le_append_last (l : List Nat) :
    ∀ (h : l ≠ []) (z : Nat), l.getLast h ≤ z →
      ∀ i, l.getD i 0 ≤ (l.dropLast ++ [z]).getD i 0 := by
  induction l with
  | nil =>
    intro h
    cases h rfl
  | cons x t ih =>
    intro h z hz i
    cases t with
    | nil =>
      cases i with
      | zero => simpa using hz
      | succ j => simp
    | cons y t2 =>
      have hne2 : y :: t2 ≠ [] := by simp
      have hz2 : (y :: t2).getLast hne2 ≤ z := by
        rwa [List.getLast_cons hne2] at hz
      cases i with
      | zero => simp [List.dropLast_cons₂]
      | succ j =>
        have hrec := ih hne2 z hz2 j
        simpa [List.dropLast_cons₂] using hrec

/-- Counterexample to C1 as stated: valid `u16` heights `[60000, 10000]`
truly sum to 70000, at or above the viewport height 5000, yet the `u16`
accumulator wraps to 4464, the surplus branch fires (in a release build;
a debug build panics at the overflowing add), and the last height changes
to 10536 instead of staying put. -/
theorem allocator_surplus_cex :
    ([60000, 10000] : List Nat) ≠ [] ∧
    5000 ≤ ([60000, 10000] : List Nat).sum ∧
    allocate_heights [60000, 10000] 5000 = [60000, 10536] ∧
    allocate_heights [60000, 10000] 5000 ≠ [60000, 10000] := by
  refine ⟨by decide, by decide, by decide, by decide⟩

/-- C1 (amended): for a non-empty list of per-item minimum heights whose
true total fits in `u16`, and a viewport height that is a `u16` value (as
`area.height` is): when the total is below `H` the whole surplus
`H - total` is added to the last item's height, when the total is at least
`H` every height is left unchanged, and no assigned height ever drops below
its computed minimum. Beyond 2^16 the `u16` accumulation wraps and the
surplus branch diverges from this description (see the counterexample). -/
theorem allocator_surplus_spec (hs : List Nat) (H : Nat) (hne : hs ≠ [])
    (hH : H < U16_MOD) (hfit : hs.sum < U16_MOD) :
    (hs.sum < H →
      allocate_heights hs H =
        hs.dropLast ++ [hs.getLast hne + (H - hs.sum)]) ∧
    (H ≤ hs.sum → allocate_heights hs H = hs) ∧
    (∀ i, hs.getD i 0 ≤ (allocate_heights hs H).getD i 0) := by
  have htot : total_min_height hs = hs.sum := total_min_height_eq hs hfit
  have hlast : hs.getLast hne ≤ hs.sum :=
    List.single_le_sum (fun x _ => Nat.zero_le x) _ (List.getLast_mem hne)
  refine ⟨?_, ?_, ?_⟩
  · intro h
    rw [allocate_heights, htot, if_pos ⟨hne, h⟩]
    exact add_to_last_eq hs _ hne (by omega)
  · intro h
    rw [allocate_heights, htot, if_neg]
    rintro ⟨-, h2⟩
    omega
  · intro i
    rw [allocate_heights, htot]
    split
    case isTrue hc =>
      rw [add_to_last_eq hs _ hne (by omega)]
      exact getD_le_append_last hs hne _ (Nat.le_add_right _ _) i
    case isFalse hc => exact le_refl _

/-- Witness for C1: heights `[3,3,3]` in a viewport of height 12 become
`[3,3,6]`, and with height 9 or less they stay `[3,3,3]`. -/
theorem allocator_surplus_spec_witness :
    ([3, 3, 3] : List Nat) ≠ [] ∧
    12 < U16_MOD ∧
    ([3, 3, 3] : List Nat).sum < U16_MOD ∧
    allocate_heights [3, 3, 3] 12 = [3, 3, 6] ∧
    allocate_heights [3, 3, 3] 9 = [3, 3, 3] := by
  have h1 := (allocator_surplus_spec [3, 3, 3] 12 (by decide) (by decide)
    (by decide)).1 (by decide)
  have h2 := (allocator_surplus_spec [3, 3, 3] 9 (by decide) (by decide)
    (by decide)).2.1 (by decide)
  refine ⟨by decide, by decide, by decide, ?_, h2⟩
  rw [h1]
  decide

/-- C7: the items the allocator treats as visible are exactly those whose
index lies in the half-open range from the scroll offset to
`min N (scroll_offset + H)`, with `H` the physical region height. -/
theorem visible_range_spec (N s H i : Nat) :
    i ∈ visible_indices N s H ↔ s ≤ i ∧ i < min N (s + H) := by
  rw [visible_indices, List.mem_range'_1]
  omega

/-- Witness for C7 at concrete numbers: with 7 items, offset 2 and height 3,
index 4 is visible and index 5 is not. -/
theorem visible_range_spec_witness :
    4 ∈ visible_indices 7 2 3 ∧ 5 ∉ visible_indices 7 2 3 :=
  ⟨(visible_range_spec 7 2 3 4).mpr (by decide),
   fun hmem => by
     have h := (visible_range_spec 7 2 3 5).mp hmem
     omega⟩

/-- An expiration with 65536 option pairs: its count is truncated to 0 by
the `as u16` cast of main.rs line 262 in every build mode. -/
def hugeExp : Expiration Int :=
  { date := "big", options := List.replicate 65536 samplePair }

/-- A state whose single, expanded expiration has 65536 option pairs. -/
def hugeApp : App Int :=
  { options_chain := { symbol := "S", last_price := 0, last_update := "",
                       expirations := [hugeExp] }
    expanded_expirations := [true]
    cursor_position := 0
    scroll_offset := 0
    show_greeks := true }

/-- Counterexample to C6 as stated: the expanded visible item with 65536
option pairs gets computed minimum height `3 + (65536 mod 2^16) + 2 = 5`,
not `3 + 65536 + 2 = 65541`, because `options.len() as u16` truncates. -/
theorem visible_item_height_cex :
    hugeApp.expanded_expirations.getD 0 false = true ∧
    (hugeApp.options_chain.expirations.getD 0
      (emptyExpiration Int)).options.length = 65536 ∧
    (visible_heights hugeApp 5).getD 0 0 = 5 ∧
    (visible_heights hugeApp 5).getD 0 0 ≠
      3 + (hugeApp.options_chain.expirations.getD 0
            (emptyExpiration Int)).options.length + 2 := by
  have hlen : (hugeApp.options_chain.expirations.getD 0
      (emptyExpiration Int)).options.length = 65536 := by
    show (List.replicate 65536 samplePair).length = 65536
    rw [List.length_replicate]
  have hv : visible_heights hugeApp 5 =
      [min_height (hugeApp.expanded_expirations.getD 0 false)
        ((hugeApp.options_chain.expirations.getD 0
          (emptyExpiration Int)).options.length)] := by
    rw [visible_heights]
    rfl
  have h5 : (visible_heights hugeApp 5).getD 0 0 = 5 := by
    rw [hv, List.getD_cons_zero, hlen]
    show min_height true 65536 = 5
    norm_num [min_height, U16_MOD]
  refine ⟨rfl, hlen, h5, ?_⟩
  rw [h5, hlen]
  decide

/-- C6 (amended): the computed minimum height of each visible item is 3 when
its expanded flag is false; when the flag is true and the option-pair count
stays within the `u16` computation (count + 5 < 2^16) it is exactly
`3 + (number of option pairs) + 2`. For larger counts the `as u16` cast and
`u16` adds truncate modulo 2^16 (see the counterexample). -/
theorem visible_item_height_spec {α : Type} (a : App α) (H i : Nat)
    (hi : a.scroll_offset + i <
      min a.options_chain.expirations.length (a.scroll_offset + H))
    (hfit : (a.options_chain.expirations.getD (a.scroll_offset + i)
        (emptyExpiration α)).options.length + 5 < U16_MOD) :
    (visible_heights a H).getD i 0 =
      if a.expanded_expirations.getD (a.scroll_offset + i) false then
        3 + (a.options_chain.expirations.getD (a.scroll_offset + i)
              (emptyExpiration α)).options.length + 2
      else 3 := by
  rw [List.getD_eq_getElem?_getD, visible_heights, List.getElem?_map,
    visible_indices, List.getElem?_range']
  · rw [U16_MOD] at hfit
    simp only [Option.map_some', Option.getD_some, one_mul, min_height,
      U16_MOD]
    split <;> omega
  · omega

/-- A state over the sample chain whose first expiration is expanded. -/
def appExpanded : App Int :=
  { App.new sampleChain with expanded_expirations := [true, false] }

/-- Witness for C6: the expanded first item of the sample chain (three option
pairs) gets minimum height `3 + 3 + 2 = 8`; the collapsed second gets 3. -/
theorem visible_item_height_spec_witness :
    appExpanded.scroll_offset + 0 <
      min appExpanded.options_chain.expirations.length
        (appExpanded.scroll_offset + 5) ∧
    (visible_heights appExpanded 5).getD 0 0 = 8 ∧
    (visible_heights appExpanded 5).getD 1 0 = 3 := by
  have h0 := visible_item_height_spec appExpanded 5 0 (by decide) (by decide)
  have h1 := visible_item_height_spec appExpanded 5 1 (by decide) (by decide)
  refine ⟨by decide, ?_, ?_⟩
  · rw [h0]; decide
  · rw [h1]; decide

/-- C9: hiding greeks removes exactly the three greek columns (delta, gamma,
vega) on each side from both the header and every data row, leaving the row
count and every remaining cell unchanged; the rendered cells never depend on
theta or rho, and no theta or rho column ever appears. -/
theorem greeks_columns_spec (α : Type) :
    (∀ p : OptionPair α,
      row_cells true p =
        call_cells p ++ greek_cells p.call.greeks ++ strike_put_cells p ++
          greek_cells p.put.greeks ∧
      row_cells false p = call_cells p ++ strike_put_cells p) ∧
    (∀ g : Greeks α,
      greek_cells g =
        [TCell.price4 g.delta, TCell.price4 g.gamma, TCell.price4 g.vega]) ∧
    (header_cells α true =
      [TCell.text "Call Sym", TCell.text "Bid", TCell.text "Ask",
        TCell.text "Bid Size", TCell.text "Ask Size", TCell.text "Volume"] ++
      [TCell.text "Delta", TCell.text "Gamma", TCell.text "Vega"] ++
      [TCell.text "Strike", TCell.text "Put Sym", TCell.text "Bid",
        TCell.text "Ask", TCell.text "Bid Size", TCell.text "Ask Size",
        TCell.text "Volume"] ++
      [TCell.text "Delta", TCell.text "Gamma", TCell.text "Vega"]) ∧
    (header_cells α false =
      [TCell.text "Call Sym", TCell.text "Bid", TCell.text "Ask",
        TCell.text "Bid Size", TCell.text "Ask Size", TCell.text "Volume"] ++
      [TCell.text "Strike", TCell.text "Put Sym", TCell.text "Bid",
        TCell.text "Ask", TCell.text "Bid Size", TCell.text "Ask Size",
        TCell.text "Volume"]) ∧
    (∀ (sg : Bool) (e : Expiration α),
      (table_rows sg e).length = e.options.length) ∧
    (∀ (sg : Bool) (p : OptionPair α) (t r : α),
      row_cells sg (set_theta_rho p t r) = row_cells sg p) ∧
    (∀ sg : Bool,
      TCell.text "Theta" ∉ header_cells α sg ∧
      TCell.text "Rho" ∉ header_cells α sg) := by
  refine ⟨?_, ?_, rfl, rfl, ?_, ?_, ?_⟩
  · intro p
    exact ⟨rfl, rfl⟩
  · intro g
    rfl
  · intro sg e
    simp [table_rows]
  · intro sg p t r
    cases sg <;>
      simp [row_cells, set_theta_rho, call_cells, strike_put_cells,
        greek_cells]
  · intro sg
    cases sg <;> constructor <;> simp [header_cells]

/-- Witness for C9 at the sample pair and expiration: the hidden-greeks row
is the visible-greeks row with the two greek blocks cut out, and the row
count stays 3 either way. -/
theorem greeks_columns_spec_witness :
    row_cells false samplePair =
      call_cells samplePair ++ strike_put_cells samplePair ∧
    (table_rows true sampleExp).length = 3 ∧
    (table_rows false sampleExp).length = 3 := by
  have h := greeks_columns_spec Int
  refine ⟨(h.1 samplePair).2, ?_, ?_⟩
  · rw [h.2.2.2.2.1 true sampleExp]; decide
  · rw [h.2.2.2.2.1 false sampleExp]; decide

/-- C10: each operation touches only its own fields. Toggling the current
expiration flips at most the flag at the cursor, leaving every other flag,
the cursor, the scroll offset, the greeks flag and the chain unchanged;
toggling greeks changes only the greeks flag; cursor moves and pages change
only cursor and scroll, never flags, greeks flag or the loaded chain. -/
theorem frame_effects_spec {α : Type} (a : App α) :
    (a.toggle_greeks = { a with show_greeks := ! a.show_greeks }) ∧
    (a.toggle_current_expiration.options_chain = a.options_chain ∧
     a.toggle_current_expiration.cursor_position = a.cursor_position ∧
     a.toggle_current_expiration.scroll_offset = a.scroll_offset ∧
     a.toggle_current_expiration.show_greeks = a.show_greeks ∧
     (∀ j, j ≠ a.cursor_position → ∀ d : Bool,
       a.toggle_current_expiration.expanded_expirations.getD j d =
         a.expanded_expirations.getD j d) ∧
     (a.cursor_position < a.expanded_expirations.length →
       a.toggle_current_expiration.expanded_expirations.getD
           a.cursor_position false =
         ! a.expanded_expirations.getD a.cursor_position false) ∧
     (¬ a.cursor_position < a.expanded_expirations.length →
       a.toggle_current_expiration = a)) ∧
    (∀ op : NavOp,
      (apply_op a op).expanded_expirations = a.expanded_expirations ∧
      (apply_op a op).show_greeks = a.show_greeks ∧
      (apply_op a op).options_chain = a.options_chain) := by
  refine ⟨rfl, ⟨?_, ?_, ?_, ?_, ?_, ?_, ?_⟩, ?_⟩
  · unfold App.toggle_current_expiration
    split <;> rfl
  · unfold App.toggle_current_expiration
    split <;> rfl
  · unfold App.toggle_current_expiration
    split <;> rfl
  · unfold App.toggle_current_expiration
    split <;> rfl
  · intro j hj d
    unfold App.toggle_current_expiration
    split
    · show (a.expanded_expirations.set a.cursor_position _).getD j d = _
      simp only [List.getD_eq_getElem?_getD]
      rw [List.getElem?_set_ne (Ne.symm hj)]
    · rfl
  · intro hcur
    unfold App.toggle_current_expiration
    rw [if_pos hcur]
    show (a.expanded_expirations.set a.cursor_position _).getD
        a.cursor_position false = _
    rw [List.getD_eq_getElem?_getD, List.getElem?_set_self hcur]
    rfl
  · intro hcur
    unfold App.toggle_current_expiration
    rw [if_neg hcur]
  · intro op
    exact ⟨apply_op_expanded a op, apply_op_greeks a op, apply_op_chain a op⟩

/-- Witness for C10 at the freshly loaded sample chain: toggling the current
expiration flips flag 0 and keeps flag 1, and a cursor move keeps the greeks
flag, expanded flags and chain. -/
theorem frame_effects_spec_witness :
    (App.new sampleChain).toggle_current_expiration.expanded_expirations.getD
        (App.new sampleChain).cursor_position false = true ∧
    (App.new sampleChain).toggle_current_expiration.expanded_expirations.getD
        1 false = false ∧
    (apply_op (App.new sampleChain) NavOp.down).show_greeks = true ∧
    (apply_op (App.new sampleChain) NavOp.down).options_chain =
      sampleChain := by
  obtain ⟨hg, ⟨hc1, hc2, hc3, hc4, hc5, hc6, hc7⟩, hop⟩ :=
    frame_effects_spec (App.new sampleChain)
  refine ⟨?_, ?_, ?_, ?_⟩
  · rw [hc6 (by decide)]
    decide
  · rw [hc5 1 (by decide) false]
    decide
  · rw [(hop NavOp.down).2.1]
    decide
  · rw [(hop NavOp.down).2.2]
    rfl
